import Mathlib

/-!
Shallow embedding of the VoiceAgentBuilder webhook components:
the n8n streaming LLM adapter (`src/n8n_agent.py`), the scheduling
webhook client (`src/scheduling/webhook_client.py`), and the
conversation-persistence pair (`src/persistence/n8n_persistence.py`,
`src/persistence/test_persistence.py`).

Python strings are modelled as Lean `String` viewed as lists of code
points (Python indexes and slices strings by code point, exactly as
`String.data` does).  JSON-decoded Python values are modelled by the
inductive `PyVal` below.  HTTP interactions are modelled by explicit
outcome types: a transport attempt either raises an exception (`PyExc`)
or yields a response carrying its status, content type, body text and
the result of attempting to parse the body as JSON.
-/

namespace VoiceAgent

/-- A Python value as produced by `json.loads` / passed to `json.dumps`:
`None`, booleans, ints, floats (carried as rationals; no arithmetic is
performed on them), strings, lists, and string-keyed dicts in insertion
order. -/
inductive PyVal where
| VNone : PyVal
| VBool (b : Bool) : PyVal
| VInt (n : Int) : PyVal
| VFloat (q : Rat) : PyVal
| VStr (s : String) : PyVal
| VList (xs : List PyVal) : PyVal
| VDict (kvs : List (String × PyVal)) : PyVal

/-- Python truthiness of a `PyVal`: `None`, `False`, `0`, `0.0`, `""`,
`[]` and `\x7b\x7d` are falsy, everything else truthy. -/
def truthy : PyVal → Bool
| .VNone => false
| .VBool b => b
| .VInt n => n != 0
| .VFloat q => q != 0
| .VStr s => s != ""
| .VList xs => !xs.isEmpty
| .VDict kvs => !kvs.isEmpty

/-- Decimal rendering of a natural number, as Python `str(n)` renders a
non-negative int. -/
def pyNatRepr (n : Nat) : String :=
  if _h : n < 10 then String.singleton (Nat.digitChar n)
  else pyNatRepr (n / 10) ++ String.singleton (Nat.digitChar (n % 10))
termination_by n
decreasing_by exact Nat.div_lt_self (by omega) (by omega)

/-- Python `str` of an int: decimal digits with a leading minus sign for
negative values. -/
def pyIntRepr (n : Int) : String :=
  if n < 0 then "-" ++ pyNatRepr n.natAbs else pyNatRepr n.toNat

/-- Stand-in for Python's rendering of a float.  No claim below depends
on its exact output: wherever it occurs it is shared by both sides of an
equation, or only its non-emptiness is used. -/
def pyFloatRepr (q : Rat) : String :=
  pyIntRepr q.num ++ "/" ++ pyNatRepr q.den

/-- Python `sep.join(parts)`. -/
def joinSep (sep : String) : List String → String
| [] => ""
| [x] => x
| x :: y :: xs => x ++ sep ++ joinSep sep (y :: xs)

mutual

/-- Python `repr` of a JSON-decoded value (the rendering `str` applies to
non-string values): `None`/`True`/`False`, decimal numbers,
single-quoted strings, and bracketed comma-separated lists and dicts. -/
def pyRepr : PyVal → String
| .VNone => "None"
| .VBool true => "True"
| .VBool false => "False"
| .VInt n => pyIntRepr n
| .VFloat q => pyFloatRepr q
| .VStr s => "'" ++ s ++ "'"
| .VList xs => "[" ++ joinSep ", " (pyReprList xs) ++ "]"
| .VDict kvs => "\x7b" ++ joinSep ", " (pyReprKVs kvs) ++ "\x7d"

/-- Rendering `pyRepr` mapped over a list of values. -/
def pyReprList : List PyVal → List String
| [] => []
| v :: vs => pyRepr v :: pyReprList vs

/-- Rendering `pyRepr` of the entries of a dict. -/
def pyReprKVs : List (String × PyVal) → List String
| [] => []
| (k, v) :: kvs => ("'" ++ k ++ "': " ++ pyRepr v) :: pyReprKVs kvs

end

/-- Python `str` applied to a JSON-decoded value: a string is returned
as itself, anything else via its `repr`-style rendering. -/
def pyStrOf : PyVal → String
| .VStr s => s
| v => pyRepr v

/-- Python `d.get(k)` on a string-keyed dict: the value when the key is
present, `None` otherwise. -/
def pyGet (kvs : List (String × PyVal)) (k : String) : PyVal :=
  match kvs.lookup k with
  | some v => v
  | none => .VNone

/-- Python `d.get(k, default)` on a string-keyed dict. -/
def pyGetD (kvs : List (String × PyVal)) (k : String) (dflt : PyVal) : PyVal :=
  match kvs.lookup k with
  | some v => v
  | none => dflt

/-- Python `a or b` on values: `a` when truthy, else `b`. -/
def pyOr (a b : PyVal) : PyVal := if truthy a then a else b

/-- Whether `needle` occurs as a contiguous run inside `hay`
(Python `needle in hay` on strings, at the code-point level). -/
def listContains (needle : List Char) : List Char → Bool
| [] => needle.isEmpty
| c :: cs => needle.isPrefixOf (c :: cs) || listContains needle cs

/-- Python `needle in hay` for strings. -/
def strContainsSub (hay needle : String) : Bool :=
  listContains needle.data hay.data

/-- Python `s.lower()`, modelled on the ASCII range (the letters the
adapter compares against — "timeout" — are ASCII). -/
def pyLower (s : String) : String := String.mk (s.data.map Char.toLower)

/-- Python `v == ""`: true exactly when `v` is the empty string (values
of other types never compare equal to a string). -/
def pyEqEmptyStr : PyVal → Bool
| .VStr s => s == ""
| _ => false

/-- A Python exception as the embedded code can observe it: its class
name, its `str(e)` message, and the class tests the handlers perform.
`isTimeoutClass` is membership in `(asyncio.TimeoutError,
aiohttp.ServerTimeoutError)` (the adapter's first handler),
`isTimeoutError` is `isinstance(e, TimeoutError)`, `isAsyncioTimeout` is
membership in `asyncio.TimeoutError` (the scheduling client's first
handler), and `isJSONDecodeError` is membership in
`json.JSONDecodeError` (the adapter's inner parse handler). -/
structure PyExc where
  name : String
  msg : String
  isTimeoutClass : Bool
  isTimeoutError : Bool
  isAsyncioTimeout : Bool
  isJSONDecodeError : Bool

/-- An HTTP response as the embedded code observes it: the status code,
the `content-type` header (empty when absent, per `.get("content-type",
"")`), the outcome of `await response.json()` (a parsed value or a
raised exception), and the body text `await response.text()`. -/
structure HttpResponse where
  status : Nat
  contentType : String
  jsonBody : Except PyExc PyVal
  textBody : String

/-- The outcome of attempting an HTTP POST: a response, or a transport
exception (timeout, connection error, ...) raised before a response was
obtained. -/
def FetchOutcome := Except PyExc HttpResponse

/-! ### n8n streaming LLM adapter (`src/n8n_agent.py`) -/

/-- Fallback text for a non-200 status (`n8n_agent.py` line 267). -/
def fallbackHTTP : String := "I'm having trouble processing your request right now."

/-- Fallback text for a timeout (`n8n_agent.py` lines 271, 279). -/
def fallbackTimeout : String := "The request timed out. Please try again."

/-- Fallback text for any other exception (`n8n_agent.py` line 281). -/
def fallbackError : String := "I encountered an error. Please try again."

/-- Fallback text for an empty resolved text (`n8n_agent.py` line 260). -/
def fallbackEmpty : String := "I couldn't generate a response."

/-- Embedding of `n8n_agent.py` lines 231-251: the value the adapter
extracts from a parsed 200 JSON body.  For a dict, the chain
`data.get("output") or data.get("response") or data.get("text") or
data.get("message") or ""`; if that value is itself a dict, its `"text"`
entry when truthy and non-`""`, else `""`.  A top-level string is used
directly; any other value is stringified with `str`. -/
def extractValue : PyVal → PyVal
| .VDict kvs =>
    let text := pyOr (pyGet kvs "output") (pyOr (pyGet kvs "response")
      (pyOr (pyGet kvs "text") (pyOr (pyGet kvs "message") (.VStr ""))))
    match text with
    | .VDict inner =>
        let nested := pyGetD inner "text" (.VStr "")
        if truthy nested && !(pyEqEmptyStr nested) then nested else .VStr ""
    | t => t
| .VStr s => .VStr s
| v => .VStr (pyStrOf v)

/-- Embedding of `n8n_agent.py` line 260:
`text = str(text) if text else "I couldn't generate a response."`. -/
def pyFinalize (t : PyVal) : String :=
  if truthy t then pyStrOf t else fallbackEmpty

/-- The adapter's resolution of a parsed 200 JSON body to the final
response text (`n8n_agent.py` lines 231-260). -/
def n8n_resolve_json_body (data : PyVal) : String :=
  pyFinalize (extractValue data)

/-- The `try`-block body of `N8nLLMStream._fetch_response`
(`n8n_agent.py` lines 209-267) applied to a received response: either
the resolved text, or the exception escaping the block.  On a 200 with a
JSON content type the body parse is attempted; a `json.JSONDecodeError`
falls back to the body text, any other parse exception escapes.  On a
200 without JSON content type the body text is used.  Either way the
empty-text fallback of line 260 applies.  On a non-200, the fixed HTTP
fallback is used. -/
def fetchTryBody (r : HttpResponse) : Except PyExc String :=
  if r.status == 200 then
    match
      (if strContainsSub r.contentType "application/json" then
        match r.jsonBody with
        | .ok data => .ok (extractValue data)
        | .error e =>
            if e.isJSONDecodeError then .ok (.VStr r.textBody) else .error e
      else .ok (.VStr r.textBody) : Except PyExc PyVal) with
    | .ok t => .ok (pyFinalize t)
    | .error e => .error e
  else .ok fallbackHTTP

/-- The full text resolution of `N8nLLMStream._fetch_response`
(`n8n_agent.py` lines 198-281): the `try` body above wrapped in the
adapter's two exception handlers — `(asyncio.TimeoutError,
aiohttp.ServerTimeoutError)` maps to the timeout fallback, and the
generic `Exception` handler maps to the timeout fallback when the
message contains "timeout" or the exception is a `TimeoutError`, else to
the generic error fallback.  Totality of this function is the adapter's
no-throw guarantee: every outcome resolves to a text. -/
def resolveText (o : FetchOutcome) : String :=
  match (match o with
         | .ok r => fetchTryBody r
         | .error e => .error e : Except PyExc String) with
  | .ok t => t
  | .error e =>
      if e.isTimeoutClass then fallbackTimeout
      else if strContainsSub (pyLower e.msg) "timeout" || e.isTimeoutError then
        fallbackTimeout
      else fallbackError

/-- The upstream-derived value, when the outcome reaches the extraction
code: on a 200 response, the value extracted from the parsed JSON body
(or the raw body text on a `JSONDecodeError` or a non-JSON content
type); `none` on a non-200 or a raised exception. -/
def upstreamValue (o : FetchOutcome) : Option PyVal :=
  match o with
  | .ok r =>
      if r.status == 200 then
        if strContainsSub r.contentType "application/json" then
          match r.jsonBody with
          | .ok data => some (extractValue data)
          | .error e => if e.isJSONDecodeError then some (.VStr r.textBody) else none
        else some (.VStr r.textBody)
      else none
  | .error _ => none

/-- Splitting into runs of 50 code points: the embedding of the loop
`for i in range(0, len(text), 50): chunk_text = text[i : i + 50]`
(`n8n_agent.py` lines 291-298). -/
def chunk50 : List Char → List (List Char)
| [] => []
| c :: cs => (c :: cs).take 50 :: chunk50 ((c :: cs).drop 50)
termination_by l => l.length
decreasing_by simp [List.length_drop]; omega

/-- One incremental delta as the adapter emits it (`n8n_agent.py`
lines 300-303): a role tag and the chunk's text. -/
structure ChoiceDelta where
  role : String
  content : String

/-- The events the consumer observes on the stream channel: a chunk, or
the closing of the channel (`self._event_ch.close()`). -/
inductive StreamEvent where
| chunkEv (d : ChoiceDelta) : StreamEvent
| closeEv : StreamEvent

/-- The deltas emitted for a resolved text (`n8n_agent.py` lines
297-313): the 50-code-point chunks in order, each tagged with role
"assistant". -/
def emitChunks (text : String) : List ChoiceDelta :=
  (chunk50 text.data).map (fun cs => ⟨"assistant", String.mk cs⟩)

/-- Everything `_fetch_response` delivers on the event channel for a
given fetch outcome: the chunk events in order, then the channel
closing (`n8n_agent.py` lines 290-318). -/
def runStream (o : FetchOutcome) : List StreamEvent :=
  (emitChunks (resolveText o)).map .chunkEv ++ [.closeEv]

/-- Modelled from the claim's words (C3): the extracted text is the
value of the first key among "output", "response", "text", "message"
that is present and truthy. -/
def firstTruthyKey (kvs : List (String × PyVal)) : List String → Option PyVal
| [] => none
| k :: ks =>
    match kvs.lookup k with
    | some v => if truthy v then some v else firstTruthyKey kvs ks
    | none => firstTruthyKey kvs ks

/-- Modelled from the claim's words (C3): for a dict body, the value of
the first present-and-truthy key among "output", "response", "text",
"message"; when that value is itself a dict, its "text" entry when
non-empty (truthy), else the empty extraction; a string body is used
directly; any other body is stringified; and an empty or falsy resolved
text yields exactly the fixed fallback. -/
def spec_resolve_json_body (data : PyVal) : String :=
  let extracted : PyVal :=
    match data with
    | .VDict kvs =>
        match firstTruthyKey kvs ["output", "response", "text", "message"] with
        | some (.VDict inner) =>
            (match inner.lookup "text" with
             | some t => if truthy t then t else .VStr ""
             | none => .VStr "")
        | some v => v
        | none => .VStr ""
    | .VStr s => .VStr s
    | v => .VStr (pyStrOf v)
  if truthy extracted then pyStrOf extracted else fallbackEmpty

/-- One element of a message's `content` when it is a list: a plain
string, or a richer part that has a `.text` attribute (`some`) or does
not (`none`). -/
inductive ContentItem where
| ciStr (s : String) : ContentItem
| ciObj (text : Option String) : ContentItem

/-- A message's `content`: absent/`None`, a plain string, a list of
parts, or a richer object with or without a `.text` attribute. -/
inductive MsgContent where
| mcNull : MsgContent
| mcStr (s : String) : MsgContent
| mcList (items : List ContentItem) : MsgContent
| mcObj (text : Option String) : MsgContent

/-- A history message as `N8nWebhookLLM.chat` observes it: an optional
`role` attribute and a `content`. -/
structure ChatMsg where
  role : Option String
  content : MsgContent

/-- The inner loop of `N8nWebhookLLM.chat` over a list-valued content
(`n8n_agent.py` lines 108-113): the first item that is a string is
taken as is, the first item with a `.text` attribute contributes that
text; items with neither are skipped; `none` when no item matches. -/
def extractFromItems : List ContentItem → Option String
| [] => none
| .ciStr s :: _ => some s
| .ciObj (some t) :: _ => some t
| .ciObj none :: rest => extractFromItems rest

/-- The assignment `N8nWebhookLLM.chat` makes to `user_message` for a
single user message's content (`n8n_agent.py` lines 104-116): the
content itself when a string, the inner-loop result when a list, the
`.text` attribute when the content object has one; `none` when no
assignment happens. -/
def extractFromContent : MsgContent → Option String
| .mcStr s => some s
| .mcList items => extractFromItems items
| .mcObj (some t) => some t
| .mcObj none => none
| .mcNull => none

/-- The scan of `N8nWebhookLLM.chat` over `reversed(messages)`
(`n8n_agent.py` lines 95-122), carrying the current `user_message`:
non-user messages are skipped; for a user message the content
extraction updates `user_message` (an extraction that makes no
assignment leaves it unchanged), and the loop breaks as soon as
`user_message` is non-empty. -/
def chatScan (acc : String) : List ChatMsg → String
| [] => acc
| m :: rest =>
    if m.role == some "user" then
      let acc' := (extractFromContent m.content).getD acc
      if acc' == "" then chatScan acc' rest else acc'
    else chatScan acc rest

/-- The user-message extraction of `N8nWebhookLLM.chat`: the scan above
over the reversed history, starting from the empty string. -/
def extractUserMessage (msgs : List ChatMsg) : String :=
  chatScan "" msgs.reverse

/-- Modelled from the claim's words (C5): the text of the most recent
message authored by the "user" role, scanning from the end backwards,
with the per-message extraction rules; the empty string when there is no
user message or no extractable text. -/
def claimUserText (msgs : List ChatMsg) : String :=
  match msgs.reverse.find? (fun m => m.role == some "user") with
  | some m => (extractFromContent m.content).getD ""
  | none => ""

/-- The behaviour the code actually implements (amended C5): the text of
the most recent user message whose per-message extraction is non-empty;
the empty string when there is none. -/
def amendedUserText (msgs : List ChatMsg) : String :=
  match msgs.reverse.find?
      (fun m => m.role == some "user" && (extractFromContent m.content).getD "" != "") with
  | some m => (extractFromContent m.content).getD ""
  | none => ""

/-- The mutable state of an `N8nWebhookLLM` instance (`n8n_agent.py`
lines 42-49): its configured webhook URL and token, the session id
generated once at construction (`str(uuid.uuid4())`), and the turn
counter starting at 0. -/
structure N8nWebhookLLM where
  webhook_url : String
  webhook_token : String
  session_id : String
  turn_counter : Nat

/-- Construction of an `N8nWebhookLLM` (`n8n_agent.py` lines 42-49);
`sid` is the UUID string drawn at construction time. -/
def N8nWebhookLLM.init (url token sid : String) : N8nWebhookLLM :=
  ⟨url, token, sid, 0⟩

/-- The wire payload `N8nWebhookLLM.chat` builds (`n8n_agent.py` lines
132-138). -/
structure N8nPayload where
  session_id : String
  turn_id : String
  input_type : String
  input_text : String
  idempotency_key : String

/-- One `chat()` invocation (`n8n_agent.py` lines 51-150): the turn
counter is incremented once, the payload carries the instance's session
id, `"t_" + turn_counter`, the extracted user message, and a fresh
idempotency key (`idKey` models the UUID drawn during the call). -/
def N8nWebhookLLM.chat (st : N8nWebhookLLM) (history : List ChatMsg)
    (idKey : String) : N8nPayload × N8nWebhookLLM :=
  let counter := st.turn_counter + 1
  (⟨st.session_id, "t_" ++ pyNatRepr counter, "text",
    extractUserMessage history, idKey⟩,
   ⟨st.webhook_url, st.webhook_token, st.session_id, counter⟩)

/-- Sequential `chat()` calls on one adapter instance: the list of wire
payloads produced, threading the instance state. -/
def runChats (st : N8nWebhookLLM) : List (List ChatMsg × String) → List N8nPayload
| [] => []
| (h, k) :: rest =>
    let (p, st') := st.chat h k
    p :: runChats st' rest

/-! ### Scheduling webhook client (`src/scheduling/webhook_client.py`) -/

/-- The `try`-block body of `SchedulingToolHandler._call_webhook`
(`webhook_client.py` lines 44-58): on a 200 the result of `await
response.json()` is returned verbatim (a parse failure escapes the
block); on any other status the structured error mapping is built from
the status and the body text. -/
def callWebhookTry (r : HttpResponse) : Except PyExc PyVal :=
  if r.status == 200 then r.jsonBody
  else .ok (.VDict [("error", .VStr ("HTTP " ++ pyNatRepr r.status)),
                    ("detail", .VStr r.textBody)])

/-- Embedding of `SchedulingToolHandler._call_webhook` (`webhook_client.py` lines
30-64): the `try` body wrapped in the two handlers — `asyncio.
TimeoutError` maps to the fixed timeout mapping, any other exception to
`\x7b"error": type name, "detail": str(e)\x7d`.  Totality of this
function is the client's never-raises guarantee. -/
def call_webhook (o : FetchOutcome) : PyVal :=
  match (match o with
         | .ok r => callWebhookTry r
         | .error e => .error e : Except PyExc PyVal) with
  | .ok v => v
  | .error e =>
      if e.isAsyncioTimeout then
        .VDict [("error", .VStr "timeout"), ("detail", .VStr "Request timed out")]
      else
        .VDict [("error", .VStr e.name), ("detail", .VStr e.msg)]

/-! ### Outbound request headers (C7) -/

/-- Headers built by `SchedulingToolHandler._call_webhook`
(`webhook_client.py` lines 37-40): the JSON content type, then the
bearer header added only when `self.api_token` is truthy. -/
def scheduling_headers (api_token : Option String) : List (String × String) :=
  let headers := [("Content-Type", "application/json")]
  match api_token with
  | some tok => if tok != "" then headers ++ [("Authorization", "Bearer " ++ tok)] else headers
  | none => headers

/-- Headers built by `N8nLLMStream._fetch_response` (`n8n_agent.py`
lines 203-207); the token is a string there, so truthiness is
non-emptiness. -/
def n8n_stream_headers (webhook_token : String) : List (String × String) :=
  let headers := [("Content-Type", "application/json")]
  if webhook_token != "" then headers ++ [("Authorization", "Bearer " ++ webhook_token)]
  else headers

/-- Headers built by `N8nConversationPersistence.store_conversation` on
the multipart (audio) path (`n8n_persistence.py` lines 130-132): empty
base, bearer header only when the token is truthy. -/
def persistence_multipart_headers (api_token : Option String) : List (String × String) :=
  match api_token with
  | some tok => if tok != "" then [("Authorization", "Bearer " ++ tok)] else []
  | none => []

/-- Headers built by `N8nConversationPersistence.store_conversation` on
the JSON-only path (`n8n_persistence.py` lines 155-157). -/
def persistence_json_headers (api_token : Option String) : List (String × String) :=
  let headers := [("Content-Type", "application/json; charset=utf-8")]
  match api_token with
  | some tok => if tok != "" then headers ++ [("Authorization", "Bearer " ++ tok)] else headers
  | none => headers

/-! ### Conversation persistence (`src/persistence/`) -/

/-- The `ConversationData` dataclass (`persistence/interface.py`):
required core strings, optional core strings, and the optional
technical-logging fields (ints, floats carried as rationals, a bool). -/
structure ConversationData where
  voice_agent_name : String
  transcript : String
  conversation_date : String
  patient_name : Option String := none
  phone_number : Option String := none
  audio_recording_url : Option String := none
  appointment_date : Option String := none
  appointment_time : Option String := none
  birth_date : Option String := none
  reason : Option String := none
  livekit_room_name : Option String := none
  livekit_job_id : Option String := none
  total_turns : Option Int := none
  user_turns : Option Int := none
  agent_turns : Option Int := none
  llm_prompt_tokens : Option Int := none
  llm_completion_tokens : Option Int := none
  llm_input_audio_tokens : Option Int := none
  llm_output_audio_tokens : Option Int := none
  stt_audio_duration_seconds : Option Rat := none
  tts_audio_duration_seconds : Option Rat := none
  tts_characters_count : Option Int := none
  openai_model : Option String := none
  openai_voice : Option String := none
  test_mode : Option Bool := none

/-- Dropping the `None`-valued entries of a dict literal while keeping
insertion order: the comprehension
`\x7bk: v for k, v in metadata.items() if v is not None\x7d` used by
both persistence implementations. -/
def dropNones : List (String × Option PyVal) → List (String × PyVal)
| [] => []
| (k, some v) :: rest => (k, v) :: dropNones rest
| (_, none) :: rest => dropNones rest

/-- The core-conversation entries shared by the remote metadata dict
(`n8n_persistence.py` lines 62-73) and the local payload dict
(`test_persistence.py` lines 48-60), in the common insertion order of
both literals; `none` marks a Python `None` value. -/
def coreEntries (d : ConversationData) : List (String × Option PyVal) :=
  [("action", some (.VStr "store_conversation")),
   ("voice_agent_name", some (.VStr d.voice_agent_name)),
   ("audio_recording_url", d.audio_recording_url.map .VStr),
   ("transcript", some (.VStr d.transcript)),
   ("conversation_date", some (.VStr d.conversation_date)),
   ("patient_name", d.patient_name.map .VStr),
   ("phone_number", d.phone_number.map .VStr),
   ("birth_date", d.birth_date.map .VStr),
   ("appointment_date", d.appointment_date.map .VStr),
   ("appointment_time", d.appointment_time.map .VStr),
   ("reason", d.reason.map .VStr)]

/-- The technical-logging entries that only the remote metadata dict
contains (`n8n_persistence.py` lines 74-93), in insertion order. -/
def techEntries (d : ConversationData) : List (String × Option PyVal) :=
  [("livekit_room_name", d.livekit_room_name.map .VStr),
   ("livekit_job_id", d.livekit_job_id.map .VStr),
   ("total_turns", d.total_turns.map .VInt),
   ("user_turns", d.user_turns.map .VInt),
   ("agent_turns", d.agent_turns.map .VInt),
   ("llm_prompt_tokens", d.llm_prompt_tokens.map .VInt),
   ("llm_completion_tokens", d.llm_completion_tokens.map .VInt),
   ("llm_input_audio_tokens", d.llm_input_audio_tokens.map .VInt),
   ("llm_output_audio_tokens", d.llm_output_audio_tokens.map .VInt),
   ("stt_audio_duration_seconds", d.stt_audio_duration_seconds.map .VFloat),
   ("tts_audio_duration_seconds", d.tts_audio_duration_seconds.map .VFloat),
   ("tts_characters_count", d.tts_characters_count.map .VInt),
   ("openai_model", d.openai_model.map .VStr),
   ("openai_voice", d.openai_voice.map .VStr),
   ("test_mode", d.test_mode.map .VBool)]

/-- The metadata mapping `N8nConversationPersistence.store_conversation`
sends to the webhook (`n8n_persistence.py` lines 61-97): the full dict
literal — core entries followed by technical entries — with `None`
values dropped. -/
def remote_metadata (d : ConversationData) : List (String × PyVal) :=
  dropNones (coreEntries d ++ techEntries d)

/-- The payload `TestConversationPersistence.store_conversation` writes
to the local JSON file (`test_persistence.py` lines 47-78): the core
dict literal, the extra `audio_file_local` entry when audio bytes are
present (`audioPath` is the path string recorded), then `None` values
dropped. -/
def local_payload (d : ConversationData) (audioPath : Option String) :
    List (String × PyVal) :=
  dropNones (coreEntries d ++
    (match audioPath with
     | some p => [("audio_file_local", some (.VStr p))]
     | none => []))

/-- Two lowercase hex digits of a code point below 0x100, as in a JSON
`\uXXXX` escape's low byte. -/
def hex2 (n : Nat) : String :=
  String.singleton (Nat.digitChar (n / 16)) ++ String.singleton (Nat.digitChar (n % 16))

/-- Per-character output of Python `json.dumps` with
`ensure_ascii=False`: the double quote and the backslash are
backslash-escaped, control characters below 0x20 get their short escape
or a `\u00XX` escape, and every other character is emitted literally. -/
def escChar (c : Char) : String :=
  if c.toNat = 34 then "\\\""
  else if c.toNat = 92 then "\\\\"
  else if c.toNat = 10 then "\\n"
  else if c.toNat = 13 then "\\r"
  else if c.toNat = 9 then "\\t"
  else if c.toNat = 8 then "\\b"
  else if c.toNat = 12 then "\\f"
  else if c.toNat < 32 then "\\u00" ++ hex2 c.toNat
  else String.singleton c

/-- The body of a JSON string literal: each code point escaped as
`json.dumps(..., ensure_ascii=False)` escapes it. -/
def escapeString (s : String) : String :=
  String.join (s.data.map escChar)

/-- A JSON string literal. -/
def jsonDumpsStr (s : String) : String := "\"" ++ escapeString s ++ "\""

mutual

/-- Python `json.dumps(v, ensure_ascii=False)` for a value, with the default
separators. -/
def jsonDumps : PyVal → String
| .VNone => "null"
| .VBool true => "true"
| .VBool false => "false"
| .VInt n => pyIntRepr n
| .VFloat q => pyFloatRepr q
| .VStr s => jsonDumpsStr s
| .VList xs => "[" ++ joinSep ", " (jsonDumpsList xs) ++ "]"
| .VDict kvs => "\x7b" ++ joinSep ", " (jsonDumpsKVs kvs) ++ "\x7d"

/-- Serialization `jsonDumps` mapped over list elements. -/
def jsonDumpsList : List PyVal → List String
| [] => []
| v :: vs => jsonDumps v :: jsonDumpsList vs

/-- Serialization `jsonDumps` of dict entries, with the default `": "` separator. -/
def jsonDumpsKVs : List (String × PyVal) → List String
| [] => []
| (k, v) :: kvs => (jsonDumpsStr k ++ ": " ++ jsonDumps v) :: jsonDumpsKVs kvs

end

/-- Python `json.dumps(obj, ensure_ascii=False)` of a dict with the default
separators, as `N8nConversationPersistence` serializes its metadata both
for the JSON request body (`n8n_persistence.py` line 161) and for the
multipart "metadata" form field (line 118). -/
def jsonDumpsObjCompact (kvs : List (String × PyVal)) : String :=
  "\x7b" ++ joinSep ", " (jsonDumpsKVs kvs) ++ "\x7d"

/-- Python `json.dump(obj, f, indent=2, ensure_ascii=False)` of a flat dict of
scalar values, as `TestConversationPersistence` writes its payload
(`test_persistence.py` line 82); the payload serialized there is always
flat, so no nested indentation arises. -/
def jsonDumpsObjIndent2 (kvs : List (String × PyVal)) : String :=
  match kvs with
  | [] => "\x7b\x7d"
  | _ => "\x7b\n  " ++ joinSep ",\n  " (jsonDumpsKVs kvs) ++ "\n\x7d"

/-- The JSON request body the remote persistence sends when no audio is
attached (`n8n_persistence.py` line 161). -/
def remote_json_body (d : ConversationData) : String :=
  jsonDumpsObjCompact (remote_metadata d)

/-- The "metadata" form field the remote persistence sends on the
multipart path (`n8n_persistence.py` lines 116-120). -/
def multipart_metadata_field (d : ConversationData) : String :=
  jsonDumpsObjCompact (remote_metadata d)

/-- The pretty-printed file contents the local persistence writes
(`test_persistence.py` lines 81-82). -/
def local_file_contents (d : ConversationData) (audioPath : Option String) : String :=
  jsonDumpsObjIndent2 (local_payload d audioPath)

/-- Whether a value is a dict (a Python mapping). -/
def isVDict : PyVal → Bool
| .VDict _ => true
| _ => false

/-! ### Helper lemmas -/

theorem str_ne_empty_iff (s : String) : s ≠ "" ↔ s.data ≠ [] := by
  cases s
  simp [String.ext_iff]

theorem str_append_ne_of_right {b : String} (a : String) (h : b ≠ "") :
    a ++ b ≠ "" := by
  rw [str_ne_empty_iff] at h ⊢
  rw [String.data_append]
  simp [h]

theorem str_append_ne_of_left {a : String} (b : String) (h : a ≠ "") :
    a ++ b ≠ "" := by
  rw [str_ne_empty_iff] at h ⊢
  rw [String.data_append]
  simp [h]

theorem singleton_ne_empty (c : Char) : String.singleton c ≠ "" := by
  rw [str_ne_empty_iff]
  simp [String.singleton]

theorem pyNatRepr_ne_empty (n : Nat) : pyNatRepr n ≠ "" := by
  rw [pyNatRepr]
  split
  · exact singleton_ne_empty _
  · exact str_append_ne_of_right _ (singleton_ne_empty _)

theorem pyIntRepr_ne_empty (n : Int) : pyIntRepr n ≠ "" := by
  rw [pyIntRepr]
  split
  · exact str_append_ne_of_left _ (by decide)
  · exact pyNatRepr_ne_empty _

theorem pyFloatRepr_ne_empty (q : Rat) : pyFloatRepr q ≠ "" := by
  unfold pyFloatRepr
  exact str_append_ne_of_right _ (pyNatRepr_ne_empty _)

theorem pyRepr_ne_empty (v : PyVal) : pyRepr v ≠ "" := by
  cases v with
  | VNone => decide
  | VBool b => cases b <;> decide
  | VInt n => exact pyIntRepr_ne_empty n
  | VFloat q => exact pyFloatRepr_ne_empty q
  | VStr s => exact str_append_ne_of_right _ (by decide)
  | VList xs => exact str_append_ne_of_right _ (by decide)
  | VDict kvs => exact str_append_ne_of_right _ (by decide)

theorem truthy_pyStrOf_ne_empty {v : PyVal} (h : truthy v = true) :
    pyStrOf v ≠ "" := by
  cases v with
  | VStr s =>
      simp only [truthy, bne_iff_ne, ne_eq] at h
      simpa [pyStrOf] using h
  | VNone => simp [truthy] at h
  | VBool b => simpa [pyStrOf] using pyRepr_ne_empty (.VBool b)
  | VInt n => simpa [pyStrOf] using pyRepr_ne_empty (.VInt n)
  | VFloat q => simpa [pyStrOf] using pyRepr_ne_empty (.VFloat q)
  | VList xs => simpa [pyStrOf] using pyRepr_ne_empty (.VList xs)
  | VDict kvs => simpa [pyStrOf] using pyRepr_ne_empty (.VDict kvs)

/-! ### Chunking lemmas -/

theorem chunk50_nil : chunk50 [] = [] := by rw [chunk50]

theorem chunk50_cons (c : Char) (cs : List Char) :
    chunk50 (c :: cs) = (c :: cs).take 50 :: chunk50 ((c :: cs).drop 50) := by
  rw [chunk50]

/-- Recursion principle following the structure of `chunk50`. -/
theorem chunk50_rec (P : List Char → Prop) (h0 : P [])
    (hstep : ∀ c cs, P ((c :: cs).drop 50) → P (c :: cs)) :
    ∀ l : List Char, P l := by
  have key : ∀ n (l : List Char), l.length ≤ n → P l := by
    intro n
    induction n with
    | zero =>
        intro l hl
        have : l = [] := List.length_eq_zero.mp (Nat.le_zero.mp hl)
        rw [this]; exact h0
    | succ n ih =>
        intro l hl
        cases l with
        | nil => exact h0
        | cons c cs =>
            apply hstep
            apply ih
            simp only [List.length_drop, List.length_cons] at *
            omega
  intro l
  exact key l.length l le_rfl

theorem chunk50_ne_nil {l : List Char} (h : l ≠ []) : chunk50 l ≠ [] := by
  cases l with
  | nil => exact absurd rfl h
  | cons c cs => rw [chunk50_cons]; simp

theorem chunk50_flatten : ∀ l : List Char, (chunk50 l).flatten = l := by
  apply chunk50_rec
  · rw [chunk50_nil]; rfl
  · intro c cs ih
    rw [chunk50_cons]
    simp only [List.flatten_cons, ih, List.take_append_drop]

theorem chunk50_length : ∀ l : List Char, (chunk50 l).length = (l.length + 49) / 50 := by
  apply chunk50_rec
  · rw [chunk50_nil]; rfl
  · intro c cs ih
    rw [chunk50_cons]
    simp only [List.length_cons, ih, List.length_drop]
    omega

theorem chunk50_mem_bounds : ∀ l : List Char, ∀ x ∈ chunk50 l,
    0 < x.length ∧ x.length ≤ 50 := by
  apply chunk50_rec (P := fun l => ∀ x ∈ chunk50 l, 0 < x.length ∧ x.length ≤ 50)
  · rw [chunk50_nil]; intro x hx; exact absurd hx (List.not_mem_nil x)
  · intro c cs ih x hx
    rw [chunk50_cons] at hx
    rcases List.mem_cons.mp hx with h | h
    · subst h
      simp only [List.length_take, List.length_cons]
      omega
    · exact ih x h

theorem chunk50_dropLast_length : ∀ l : List Char, ∀ x ∈ (chunk50 l).dropLast,
    x.length = 50 := by
  apply chunk50_rec (P := fun l => ∀ x ∈ (chunk50 l).dropLast, x.length = 50)
  · rw [chunk50_nil]; intro x hx; exact absurd hx (List.not_mem_nil x)
  · intro c cs ih x hx
    rw [chunk50_cons] at hx
    by_cases hd : (c :: cs).drop 50 = []
    · rw [hd, chunk50_nil] at hx
      simp at hx
    · have hne : chunk50 ((c :: cs).drop 50) ≠ [] := chunk50_ne_nil hd
      rw [List.dropLast_cons_of_ne_nil hne] at hx
      rcases List.mem_cons.mp hx with h | h
      · subst h
        have : 50 ≤ (c :: cs).length := by
          by_contra hlt
          exact hd (List.drop_eq_nil_of_le (by omega))
        simp only [List.length_take]
        omega
      · exact ih x h

theorem chunk50_getLast : ∀ l : List Char, l ≠ [] →
    ∃ x, (chunk50 l).getLast? = some x ∧ 0 < x.length ∧ x.length ≤ 50 := by
  apply chunk50_rec (P := fun l => l ≠ [] →
    ∃ x, (chunk50 l).getLast? = some x ∧ 0 < x.length ∧ x.length ≤ 50)
  · intro h; exact absurd rfl h
  · intro c cs ih _
    rw [chunk50_cons]
    by_cases hd : (c :: cs).drop 50 = []
    · rw [hd, chunk50_nil]
      refine ⟨(c :: cs).take 50, rfl, ?_, ?_⟩ <;>
        simp only [List.length_take, List.length_cons] <;> omega
    · obtain ⟨x, hx, hxb⟩ := ih hd
      refine ⟨x, ?_, hxb⟩
      cases hck : chunk50 ((c :: cs).drop 50) with
      | nil => exact absurd hck (chunk50_ne_nil hd)
      | cons y ys =>
          rw [List.getLast?_cons_cons]
          rw [hck] at hx
          exact hx

theorem emitChunks_join (t : String) :
    String.join ((emitChunks t).map ChoiceDelta.content) = t := by
  have h : (((emitChunks t).map ChoiceDelta.content).map String.data) = chunk50 t.data := by
    unfold emitChunks
    rw [List.map_map, List.map_map]
    exact List.map_id' _
  apply String.ext
  rw [String.data_join, h, chunk50_flatten]

theorem emitChunks_ne_nil {t : String} (ht : t ≠ "") : emitChunks t ≠ [] := by
  unfold emitChunks
  intro h
  rw [List.map_eq_nil_iff] at h
  exact chunk50_ne_nil ((str_ne_empty_iff t).mp ht) h

/-! ### C2: chunking round-trip -/

/-- C2.  For every text of length L > 0, the adapter emits exactly
ceil(L/50) chunks, each tagged with role "assistant", every chunk but
the last of exactly 50 characters and the last one of 1 to 50
characters, and the in-order concatenation of the chunk contents equals
the original text exactly (lengths are counted in code points, as
Python slices strings, so multi-byte characters are preserved as
such). -/
theorem chunking_round_trip (t : String) (ht : t ≠ "") :
    (emitChunks t).length = (t.length + 49) / 50
    ∧ (∀ d ∈ emitChunks t, d.role = "assistant")
    ∧ (∀ d ∈ (emitChunks t).dropLast, d.content.length = 50)
    ∧ (∃ lastd, (emitChunks t).getLast? = some lastd
        ∧ 0 < lastd.content.length ∧ lastd.content.length ≤ 50)
    ∧ String.join ((emitChunks t).map ChoiceDelta.content) = t := by
  refine ⟨?_, ?_, ?_, ?_, emitChunks_join t⟩
  · unfold emitChunks
    rw [List.length_map, chunk50_length]
    rfl
  · intro d hd
    unfold emitChunks at hd
    obtain ⟨cs, _, rfl⟩ := List.mem_map.mp hd
    rfl
  · intro d hd
    unfold emitChunks at hd
    rw [← List.map_dropLast] at hd
    obtain ⟨cs, hcs, rfl⟩ := List.mem_map.mp hd
    show (String.mk cs).length = 50
    rw [String.length_mk]
    exact chunk50_dropLast_length t.data cs hcs
  · obtain ⟨x, hx, hx1, hx2⟩ := chunk50_getLast t.data ((str_ne_empty_iff t).mp ht)
    refine ⟨⟨"assistant", String.mk x⟩, ?_, ?_, ?_⟩
    · unfold emitChunks
      rw [List.getLast?_map, hx]
      rfl
    · rw [String.length_mk]; exact hx1
    · rw [String.length_mk]; exact hx2

/-- Witness for C2 at a concrete unicode text. -/
theorem chunking_round_trip_witness :
    ("héllo wörld €" : String) ≠ ""
    ∧ ((emitChunks "héllo wörld €").length = (("héllo wörld €" : String).length + 49) / 50
       ∧ (∀ d ∈ emitChunks "héllo wörld €", d.role = "assistant")
       ∧ (∀ d ∈ (emitChunks "héllo wörld €").dropLast, d.content.length = 50)
       ∧ (∃ lastd, (emitChunks "héllo wörld €").getLast? = some lastd
           ∧ 0 < lastd.content.length ∧ lastd.content.length ≤ 50)
       ∧ String.join ((emitChunks "héllo wörld €").map ChoiceDelta.content)
           = "héllo wörld €") :=
  ⟨by decide, chunking_round_trip "héllo wörld €" (by decide)⟩

/-! ### C1: total fallback, no exception reaches the consumer -/

/-- The four fixed fallback strings of the adapter. -/
def fallbackList : List String :=
  [fallbackHTTP, fallbackTimeout, fallbackError, fallbackEmpty]

theorem finalize_case (o : FetchOutcome) (v : PyVal)
    (hu : upstreamValue o = some v) (hf : resolveText o = pyFinalize v) :
    (∃ w, upstreamValue o = some w ∧ truthy w = true ∧ resolveText o = pyStrOf w)
    ∨ resolveText o ∈ fallbackList := by
  by_cases htr : truthy v = true
  · left
    exact ⟨v, hu, htr, by rw [hf]; simp [pyFinalize, htr]⟩
  · right
    rw [hf]
    simp only [pyFinalize, htr, Bool.false_eq_true, if_false]
    simp [fallbackList]

theorem handler_mem (e : PyExc) :
    (if e.isTimeoutClass then fallbackTimeout
     else if strContainsSub (pyLower e.msg) "timeout" || e.isTimeoutError then
       fallbackTimeout
     else fallbackError) ∈ fallbackList := by
  split
  · simp [fallbackList]
  · split <;> simp [fallbackList]

theorem resolveText_spec (o : FetchOutcome) :
    (∃ w, upstreamValue o = some w ∧ truthy w = true ∧ resolveText o = pyStrOf w)
    ∨ resolveText o ∈ fallbackList := by
  cases o with
  | error e =>
      right
      have h : resolveText (.error e)
          = (if e.isTimeoutClass then fallbackTimeout
             else if strContainsSub (pyLower e.msg) "timeout" || e.isTimeoutError then
               fallbackTimeout
             else fallbackError) := rfl
      rw [h]
      exact handler_mem e
  | ok r =>
      cases h200 : r.status == 200 with
      | false =>
          right
          have h : resolveText (.ok r) = fallbackHTTP := by
            simp [resolveText, fetchTryBody, h200]
          rw [h]
          simp [fallbackList]
      | true =>
          cases hct : strContainsSub r.contentType "application/json" with
          | false =>
              apply finalize_case (.ok r) (.VStr r.textBody)
              · simp [upstreamValue, h200, hct]
              · simp [resolveText, fetchTryBody, h200, hct]
          | true =>
              cases hjb : r.jsonBody with
              | ok data =>
                  apply finalize_case (.ok r) (extractValue data)
                  · simp [upstreamValue, h200, hct, hjb]
                  · simp [resolveText, fetchTryBody, h200, hct, hjb]
              | error e =>
                  cases hde : e.isJSONDecodeError with
                  | true =>
                      apply finalize_case (.ok r) (.VStr r.textBody)
                      · simp [upstreamValue, h200, hct, hjb, hde]
                      · simp [resolveText, fetchTryBody, h200, hct, hjb, hde]
                  | false =>
                      right
                      have h : resolveText (.ok r)
                          = (if e.isTimeoutClass then fallbackTimeout
                             else if strContainsSub (pyLower e.msg) "timeout"
                                 || e.isTimeoutError then fallbackTimeout
                             else fallbackError) := by
                        simp [resolveText, fetchTryBody, h200, hct, hjb, hde]
                      rw [h]
                      exact handler_mem e

theorem resolveText_ne_empty (o : FetchOutcome) : resolveText o ≠ "" := by
  rcases resolveText_spec o with ⟨w, _, htr, heq⟩ | hmem
  · rw [heq]
    exact truthy_pyStrOf_ne_empty htr
  · simp only [fallbackList, List.mem_cons, List.not_mem_nil, or_false] at hmem
    rcases hmem with h | h | h | h <;> rw [h] <;> decide

/-- C1.  No upstream outcome (any status, any body, any exception)
leaks an exception to the consumer: the resolution is a total function,
the resolved text is non-empty and is either the upstream-derived value
(stringified) or one of the four fixed fallback strings, and the stream
always delivers at least one chunk whose in-order concatenation is the
resolved text, followed by the channel closing. -/
theorem stream_no_throw (o : FetchOutcome) :
    resolveText o ≠ ""
    ∧ ((∃ w, upstreamValue o = some w ∧ truthy w = true ∧ resolveText o = pyStrOf w)
        ∨ resolveText o ∈ fallbackList)
    ∧ ∃ ds, runStream o = ds.map StreamEvent.chunkEv ++ [StreamEvent.closeEv]
        ∧ ds ≠ [] ∧ String.join (ds.map ChoiceDelta.content) = resolveText o := by
  refine ⟨resolveText_ne_empty o, resolveText_spec o,
    emitChunks (resolveText o), rfl, ?_, emitChunks_join _⟩
  exact emitChunks_ne_nil (resolveText_ne_empty o)

/-! ### C3: response-extraction priority -/

theorem pyOr_chain_eq (kvs : List (String × PyVal)) : ∀ ks : List String,
    ks.foldr (fun k acc => pyOr (pyGet kvs k) acc) (.VStr "")
      = (firstTruthyKey kvs ks).getD (.VStr "") := by
  intro ks
  induction ks with
  | nil => rfl
  | cons k ks ih =>
      rw [List.foldr_cons, ih]
      simp only [firstTruthyKey]
      cases hlk : kvs.lookup k with
      | none => simp [pyOr, pyGet, hlk, truthy]
      | some v =>
          cases htr : truthy v with
          | true => simp [pyOr, pyGet, hlk, htr]
          | false => simp [pyOr, pyGet, hlk, htr]

theorem truthy_and_not_empty (v : PyVal) :
    (truthy v && !(pyEqEmptyStr v)) = truthy v := by
  cases v with
  | VStr s =>
      cases h : s == "" with
      | true =>
          have hs := eq_of_beq h
          subst hs
          simp [truthy, pyEqEmptyStr]
      | false => simp [truthy, pyEqEmptyStr, h]
  | VNone => rfl
  | VBool b => simp [truthy, pyEqEmptyStr]
  | VInt n => simp [truthy, pyEqEmptyStr]
  | VFloat q => simp [truthy, pyEqEmptyStr]
  | VList xs => simp [truthy, pyEqEmptyStr]
  | VDict kvs => simp [truthy, pyEqEmptyStr]

/-- C3.  The adapter's resolution of a parsed 200 JSON body agrees with
the claim's description on every body: first present-and-truthy key
among "output", "response", "text", "message"; a dict value contributes
its non-empty "text" entry or the empty extraction; a string body is
used directly, any other body stringified; an empty or falsy resolved
text yields exactly the fixed fallback (in particular the empty body
yields it). -/
theorem extraction_priority (data : PyVal) :
    n8n_resolve_json_body data = spec_resolve_json_body data := by
  cases data with
  | VDict kvs =>
      have hchain : pyOr (pyGet kvs "output") (pyOr (pyGet kvs "response")
          (pyOr (pyGet kvs "text") (pyOr (pyGet kvs "message") (.VStr ""))))
          = (firstTruthyKey kvs ["output", "response", "text", "message"]).getD (.VStr "") :=
        pyOr_chain_eq kvs ["output", "response", "text", "message"]
      cases hfk : firstTruthyKey kvs ["output", "response", "text", "message"] with
      | none =>
          rw [hfk] at hchain
          simp only [Option.getD] at hchain
          simp [n8n_resolve_json_body, spec_resolve_json_body, extractValue,
            hchain, hfk, pyFinalize]
      | some v =>
          rw [hfk] at hchain
          simp only [Option.getD] at hchain
          cases v with
          | VDict inner =>
              simp only [n8n_resolve_json_body, spec_resolve_json_body,
                extractValue, hchain, hfk]
              cases hlt : inner.lookup "text" with
              | none => simp [pyGetD, hlt, pyFinalize, truthy]
              | some t => simp only [pyGetD, hlt, truthy_and_not_empty, pyFinalize]
          | VNone =>
              simp [n8n_resolve_json_body, spec_resolve_json_body, extractValue,
                hchain, hfk, pyFinalize]
          | VBool b =>
              simp [n8n_resolve_json_body, spec_resolve_json_body, extractValue,
                hchain, hfk, pyFinalize]
          | VInt n =>
              simp [n8n_resolve_json_body, spec_resolve_json_body, extractValue,
                hchain, hfk, pyFinalize]
          | VFloat q =>
              simp [n8n_resolve_json_body, spec_resolve_json_body, extractValue,
                hchain, hfk, pyFinalize]
          | VStr s =>
              simp [n8n_resolve_json_body, spec_resolve_json_body, extractValue,
                hchain, hfk, pyFinalize]
          | VList xs =>
              simp [n8n_resolve_json_body, spec_resolve_json_body, extractValue,
                hchain, hfk, pyFinalize]
  | VNone => rfl
  | VBool b => rfl
  | VInt n => rfl
  | VFloat q => rfl
  | VStr s => rfl
  | VList xs => rfl

/-! ### C4: turn-id monotonicity and session-id constancy -/

theorem runChats_payloads (st : N8nWebhookLLM)
    (calls : List (List ChatMsg × String)) :
    (runChats st calls).map N8nPayload.turn_id
      = (List.range calls.length).map
          (fun i => "t_" ++ pyNatRepr (st.turn_counter + i + 1))
    ∧ ∀ p ∈ runChats st calls, p.session_id = st.session_id := by
  induction calls generalizing st with
  | nil => exact ⟨rfl, by intro p hp; exact absurd hp (List.not_mem_nil p)⟩
  | cons c rest ih =>
      obtain ⟨hmap, hsid⟩ :=
        ih ⟨st.webhook_url, st.webhook_token, st.session_id, st.turn_counter + 1⟩
      constructor
      · show ("t_" ++ pyNatRepr (st.turn_counter + 1)) :: _ = _
        rw [List.length_cons, List.range_succ_eq_map, List.map_cons, List.map_map]
        congr 1
        · rw [hmap]
          apply List.map_congr_left
          intro i _
          show "t_" ++ pyNatRepr (st.turn_counter + 1 + i + 1) = _
          congr 2
          omega
      · intro p hp
        rcases List.mem_cons.mp hp with h | h
        · rw [h]
        · exact hsid p h

/-- C4.  For every adapter instance and every sequence of N sequential
`chat()` calls on it, the `turn_id`s sent on the wire are exactly
`"t_1", ..., "t_N"` in order (the counter starts at 0 and is bumped
exactly once per call), and every payload carries the session id drawn
once at construction. -/
theorem turn_id_monotonic (url token sid : String)
    (calls : List (List ChatMsg × String)) :
    (runChats (N8nWebhookLLM.init url token sid) calls).map N8nPayload.turn_id
      = (List.range calls.length).map (fun i => "t_" ++ pyNatRepr (i + 1))
    ∧ ∀ p ∈ runChats (N8nWebhookLLM.init url token sid) calls,
        p.session_id = sid := by
  obtain ⟨hmap, hsid⟩ := runChats_payloads (N8nWebhookLLM.init url token sid) calls
  refine ⟨?_, hsid⟩
  rw [hmap]
  apply List.map_congr_left
  intro i _
  show "t_" ++ pyNatRepr (0 + i + 1) = _
  congr 2
  omega

/-! ### C5: latest-user-message extraction -/

/-- Counterexample to C5 as stated: when the most recent user message
has an empty string content, the code does not use its (empty) text —
it keeps scanning and returns the text of an earlier user message. -/
theorem user_text_counterexample :
    claimUserText [⟨some "user", .mcStr "hello"⟩, ⟨some "user", .mcStr ""⟩] = ""
    ∧ extractUserMessage [⟨some "user", .mcStr "hello"⟩, ⟨some "user", .mcStr ""⟩]
        = "hello" := by
  constructor <;> rfl

theorem chatScan_eq_find (l : List ChatMsg) :
    chatScan "" l
      = (match l.find? (fun m => m.role == some "user"
            && (extractFromContent m.content).getD "" != "") with
         | some m => (extractFromContent m.content).getD ""
         | none => "") := by
  induction l with
  | nil => rfl
  | cons m rest ih =>
      rw [List.find?_cons]
      cases hrole : (m.role == some "user") with
      | false =>
          have h1 : chatScan "" (m :: rest) = chatScan "" rest := by
            simp only [chatScan]
            simp [hrole]
          rw [h1, ih]
          simp [hrole]
      | true =>
          cases hext : ((extractFromContent m.content).getD "" == "") with
          | true =>
              have he := eq_of_beq hext
              have h1 : chatScan "" (m :: rest) = chatScan "" rest := by
                simp only [chatScan]
                simp [hrole, he]
              rw [h1, ih]
              simp [hrole, bne, hext]
          | false =>
              have hne := ne_of_beq_false hext
              have h1 : chatScan "" (m :: rest)
                  = (extractFromContent m.content).getD "" := by
                simp only [chatScan]
                simp [hrole, hne]
              rw [h1]
              simp [hrole, bne, hext]

/-- Amended C5 (as forced by the counterexample): the text placed in the
payload's `input.text` field is the per-message extraction of the most
recent user message whose extraction is non-empty — an empty-text user
message is skipped in favour of earlier ones — and is the empty string
when no user message yields a non-empty text; no placeholder is ever
substituted. -/
theorem user_text_amended (msgs : List ChatMsg) :
    extractUserMessage msgs = amendedUserText msgs := by
  unfold extractUserMessage amendedUserText
  exact chatScan_eq_find msgs.reverse

/-! ### C6 and C10: scheduling webhook client result shape -/

/-- Counterexample to C6 as stated: a 200 response whose JSON body is a
non-object (here the empty array) is returned verbatim, so the result is
not a mapping. -/
theorem call_webhook_counterexample :
    call_webhook (.ok ⟨200, "application/json", .ok (.VList []), "[]"⟩)
        = .VList []
    ∧ isVDict (call_webhook (.ok ⟨200, "application/json", .ok (.VList []), "[]"⟩))
        = false :=
  ⟨rfl, rfl⟩

/-- Amended C6 (as forced by the counterexample): the call operation
never raises (it is a total function of the outcome); on HTTP 200 the
parsed JSON body is returned verbatim — a mapping exactly when that body
is a JSON object; on any non-200 status the result is the mapping
`\x7b"error": "HTTP <status>", "detail": <body text>\x7d`; on an
`asyncio.TimeoutError` the fixed timeout mapping; on any other raised
exception `\x7b"error": <type name>, "detail": str(e)\x7d`; so the
result is a mapping on every path except a 200 whose parsed body is a
non-object. -/
theorem call_webhook_result_shape (o : FetchOutcome) :
    (∀ r j, o = .ok r → r.status = 200 → r.jsonBody = .ok j → call_webhook o = j)
    ∧ (∀ r, o = .ok r → r.status ≠ 200 →
        call_webhook o = .VDict [("error", .VStr ("HTTP " ++ pyNatRepr r.status)),
                                 ("detail", .VStr r.textBody)])
    ∧ (∀ e, o = .error e → e.isAsyncioTimeout = true →
        call_webhook o = .VDict [("error", .VStr "timeout"),
                                 ("detail", .VStr "Request timed out")])
    ∧ (∀ e, o = .error e → e.isAsyncioTimeout = false →
        call_webhook o = .VDict [("error", .VStr e.name), ("detail", .VStr e.msg)])
    ∧ (∀ r e, o = .ok r → r.jsonBody = .error e → isVDict (call_webhook o) = true)
    ∧ (∀ e, o = .error e → isVDict (call_webhook o) = true) := by
  refine ⟨?_, ?_, ?_, ?_, ?_, ?_⟩
  · rintro r j rfl h200 hjb
    simp [call_webhook, callWebhookTry, h200, hjb]
  · rintro r rfl h200
    have hb : (r.status == 200) = false := by
      simp [h200]
    simp [call_webhook, callWebhookTry, hb]
  · rintro e rfl hto
    simp [call_webhook, hto]
  · rintro e rfl hto
    simp [call_webhook, hto]
  · rintro r e rfl hjb
    by_cases h200 : r.status == 200
    · simp only [call_webhook, callWebhookTry, h200, if_true, hjb]
      split <;> rfl
    · simp only [call_webhook, callWebhookTry, Bool.not_eq_true] at h200 ⊢
      rw [h200]
      rfl
  · rintro e rfl
    simp only [call_webhook]
    split <;> rfl

/-- Witness for the amended C6, instantiating the non-200 case. -/
theorem call_webhook_result_shape_witness :
    call_webhook (.ok ⟨500, "text/html", .ok .VNone, "boom"⟩)
      = .VDict [("error", .VStr ("HTTP " ++ pyNatRepr 500)),
                ("detail", .VStr "boom")] :=
  (call_webhook_result_shape (.ok ⟨500, "text/html", .ok .VNone, "boom"⟩)).2.1
    ⟨500, "text/html", .ok .VNone, "boom"⟩ rfl (by decide)

/-- C10.  A 200 response whose body fails to parse as JSON does not
yield the raw body and does not raise: the parse exception is caught by
the generic handler (a JSON parse failure is not an
`asyncio.TimeoutError`) and the result is
`\x7b"error": <type name>, "detail": str(e)\x7d`. -/
theorem json_parse_failure_caught (r : HttpResponse) (e : PyExc)
    (h200 : r.status = 200) (hjb : r.jsonBody = .error e)
    (hto : e.isAsyncioTimeout = false) :
    call_webhook (.ok r) = .VDict [("error", .VStr e.name), ("detail", .VStr e.msg)]
    ∧ call_webhook (.ok r) ≠ .VStr r.textBody := by
  have h : call_webhook (.ok r)
      = .VDict [("error", .VStr e.name), ("detail", .VStr e.msg)] := by
    simp [call_webhook, callWebhookTry, h200, hjb, hto]
  refine ⟨h, ?_⟩
  rw [h]
  intro hcontra
  exact PyVal.noConfusion hcontra

/-- Witness for C10 at a concrete unparseable-body response. -/
theorem json_parse_failure_caught_witness :
    call_webhook (.ok ⟨200, "application/json",
        .error ⟨"JSONDecodeError", "Expecting value", false, false, false, true⟩,
        "not json"⟩)
      = .VDict [("error", .VStr "JSONDecodeError"),
                ("detail", .VStr "Expecting value")]
    ∧ call_webhook (.ok ⟨200, "application/json",
        .error ⟨"JSONDecodeError", "Expecting value", false, false, false, true⟩,
        "not json"⟩) ≠ .VStr "not json" :=
  json_parse_failure_caught
    ⟨200, "application/json",
      .error ⟨"JSONDecodeError", "Expecting value", false, false, false, true⟩,
      "not json"⟩
    ⟨"JSONDecodeError", "Expecting value", false, false, false, true⟩
    rfl rfl rfl

/-! ### C7: Authorization header presence -/

/-- C7.  For each of the four outbound request builders (scheduling
client, streaming adapter, remote persistence multipart and JSON
paths): a non-empty configured token puts exactly
`Authorization: Bearer <token>` in the headers, and an empty or absent
token leaves the headers without any "Authorization" key at all. -/
theorem auth_header_invariant :
    (∀ tok : String, tok ≠ "" →
       (scheduling_headers (some tok)).lookup "Authorization"
           = some ("Bearer " ++ tok)
       ∧ (n8n_stream_headers tok).lookup "Authorization"
           = some ("Bearer " ++ tok)
       ∧ (persistence_multipart_headers (some tok)).lookup "Authorization"
           = some ("Bearer " ++ tok)
       ∧ (persistence_json_headers (some tok)).lookup "Authorization"
           = some ("Bearer " ++ tok))
    ∧ (∀ t : Option String, (t = none ∨ t = some "") →
       (scheduling_headers t).lookup "Authorization" = none
       ∧ (n8n_stream_headers "").lookup "Authorization" = none
       ∧ (persistence_multipart_headers t).lookup "Authorization" = none
       ∧ (persistence_json_headers t).lookup "Authorization" = none) := by
  have hCT : ("Authorization" == "Content-Type") = false := by decide
  constructor
  · intro tok htok
    have hbne : (tok != "") = true := by
      simpa using htok
    refine ⟨?_, ?_, ?_, ?_⟩ <;>
      simp [scheduling_headers, n8n_stream_headers, persistence_multipart_headers,
        persistence_json_headers, hbne, List.lookup, hCT]
  · intro t ht
    rcases ht with rfl | rfl <;>
      refine ⟨?_, ?_, ?_, ?_⟩ <;>
        simp [scheduling_headers, n8n_stream_headers, persistence_multipart_headers,
          persistence_json_headers, List.lookup, hCT]

/-- Witness for C7 at a concrete token and at the absent token. -/
theorem auth_header_invariant_witness :
    ("token123" : String) ≠ ""
    ∧ (scheduling_headers (some "token123")).lookup "Authorization"
        = some ("Bearer " ++ "token123")
    ∧ (scheduling_headers none).lookup "Authorization" = none :=
  ⟨by decide,
   (auth_header_invariant.1 "token123" (by decide)).1,
   (auth_header_invariant.2 none (Or.inl rfl)).1⟩

/-! ### C8: local vs. remote persistence payloads -/

/-- A conversation record with one technical-logging field set (used to
separate the two persistence payloads). -/
def dataTech : ConversationData :=
  ⟨"agent", "t", "2025-10-30", none, none, none, none, none, none, none,
   none, none, some 5, none, none, none, none, none, none, none, none,
   none, none, none, none⟩

/-- A conversation record with only core fields set (all
technical-logging fields `None`), with an accented transcript. -/
def dataCore : ConversationData :=
  ⟨"agent", "Stéphane", "2025-10-30", none, none, none, none, none, none, none,
   none, none, none, none, none, none, none, none, none, none, none,
   none, none, none, none⟩

theorem dropNones_nil : dropNones [] = [] := rfl

theorem dropNones_some_singleton (k : String) (v : PyVal) :
    dropNones [(k, some v)] = [(k, v)] := rfl

theorem dropNones_append (a b : List (String × Option PyVal)) :
    dropNones (a ++ b) = dropNones a ++ dropNones b := by
  induction a with
  | nil => rfl
  | cons kv rest ih =>
      obtain ⟨k, v⟩ := kv
      cases v with
      | none => simpa [dropNones] using ih
      | some x => simp [dropNones, ih]

/-- Counterexample to C8 as stated: with `total_turns = 5` set, the
remote metadata mapping carries a "total_turns" entry that the local
file's payload does not, so the two mappings differ even though no audio
is present. -/
theorem persistence_payload_counterexample :
    (remote_metadata dataTech).length = 5
    ∧ (local_payload dataTech none).length = 4
    ∧ remote_metadata dataTech ≠ local_payload dataTech none := by
  refine ⟨rfl, rfl, ?_⟩
  intro h
  have h1 : (remote_metadata dataTech).length
      = (local_payload dataTech none).length := by rw [h]
  rw [show (remote_metadata dataTech).length = 5 from rfl] at h1
  rw [show (local_payload dataTech none).length = 4 from rfl] at h1
  exact absurd h1 (by decide)

/-- Amended C8 (as forced by the counterexample): the remote metadata
mapping is the local payload (without audio) extended, in order, with
the non-`None` technical-logging entries (LiveKit identifiers, turn
counts, token counts, speech metrics, model configuration); the two
mappings coincide exactly on records whose technical-logging fields are
all `None`; and with audio present the local payload additionally
records the local audio path as a final extra field. -/
theorem persistence_payload_amended (d : ConversationData) (p : String) :
    remote_metadata d = local_payload d none ++ dropNones (techEntries d)
    ∧ local_payload d (some p)
        = local_payload d none ++ [("audio_file_local", .VStr p)]
    ∧ (dropNones (techEntries d) = [] → remote_metadata d = local_payload d none) := by
  have h1 : remote_metadata d
      = local_payload d none ++ dropNones (techEntries d) := by
    simp [remote_metadata, local_payload, dropNones_append]
  refine ⟨h1, ?_, ?_⟩
  · show dropNones (coreEntries d ++ [("audio_file_local", some (.VStr p))])
        = dropNones (coreEntries d ++ []) ++ [("audio_file_local", PyVal.VStr p)]
    rw [dropNones_append, dropNones_append, dropNones_nil,
      dropNones_some_singleton, List.append_nil]
  · intro htech
    rw [h1, htech, List.append_nil]

/-- Witness for the amended C8 at a record with no technical fields. -/
theorem persistence_payload_amended_witness :
    dropNones (techEntries dataCore) = []
    ∧ remote_metadata dataCore = local_payload dataCore none :=
  ⟨rfl, (persistence_payload_amended dataCore "p").2.2 rfl⟩

/-! ### C9: UTF-8 preservation through serialization -/

theorem str_mem_append {c : Char} (a b : String) :
    c ∈ (a ++ b).data ↔ c ∈ a.data ∨ c ∈ b.data := by
  rw [String.data_append]
  exact List.mem_append

theorem escChar_latin1 {c : Char} (hlo : 0xA0 ≤ c.toNat) :
    escChar c = String.singleton c := by
  unfold escChar
  rw [if_neg (by omega : ¬(c.toNat = 34)), if_neg (by omega : ¬(c.toNat = 92)),
    if_neg (by omega : ¬(c.toNat = 10)), if_neg (by omega : ¬(c.toNat = 13)),
    if_neg (by omega : ¬(c.toNat = 9)), if_neg (by omega : ¬(c.toNat = 8)),
    if_neg (by omega : ¬(c.toNat = 12)), if_neg (by omega : ¬(c.toNat < 32))]

theorem mem_escapeString {c : Char} (hc : escChar c = String.singleton c)
    {s : String} (hs : c ∈ s.data) : c ∈ (escapeString s).data := by
  unfold escapeString
  rw [String.data_join, List.map_map]
  apply List.mem_flatten.mpr
  refine ⟨(escChar c).data, List.mem_map_of_mem _ hs, ?_⟩
  rw [hc]
  simp [String.singleton]

theorem mem_jsonDumpsStr {c : Char} (hc : escChar c = String.singleton c)
    {s : String} (hs : c ∈ s.data) : c ∈ (jsonDumpsStr s).data := by
  unfold jsonDumpsStr
  rw [str_mem_append]
  left
  rw [str_mem_append]
  right
  exact mem_escapeString hc hs

theorem mem_joinSep {c : Char} (sep : String) :
    ∀ l : List String, ∀ x ∈ l, c ∈ x.data → c ∈ (joinSep sep l).data := by
  intro l
  induction l with
  | nil => intro x hx; exact absurd hx (List.not_mem_nil x)
  | cons y ys ih =>
      intro x hx hc
      cases ys with
      | nil =>
          rcases List.mem_cons.mp hx with h | h
          · subst h; exact hc
          · exact absurd h (List.not_mem_nil x)
      | cons z zs =>
          show c ∈ (y ++ sep ++ joinSep sep (z :: zs)).data
          rw [str_mem_append]
          rcases List.mem_cons.mp hx with h | h
          · left; rw [str_mem_append]; left; subst h; exact hc
          · right; exact ih x h hc

theorem jsonDumpsKVs_mem {k : String} {v : PyVal} :
    ∀ kvs : List (String × PyVal), (k, v) ∈ kvs →
      (jsonDumpsStr k ++ ": " ++ jsonDumps v) ∈ jsonDumpsKVs kvs := by
  intro kvs
  induction kvs with
  | nil => intro h; exact absurd h (List.not_mem_nil _)
  | cons kv rest ih =>
      obtain ⟨k', v'⟩ := kv
      intro h
      rcases List.mem_cons.mp h with h | h
      · rw [(Prod.mk.injEq .. ).mp h |>.1, (Prod.mk.injEq .. ).mp h |>.2]
        exact List.Mem.head _
      · exact List.Mem.tail _ (ih h)

theorem mem_jsonDumpsObjCompact {c : Char} (hc : escChar c = String.singleton c)
    {k s : String} {kvs : List (String × PyVal)}
    (hkv : (k, .VStr s) ∈ kvs) (hs : c ∈ s.data) :
    c ∈ (jsonDumpsObjCompact kvs).data := by
  unfold jsonDumpsObjCompact
  rw [str_mem_append]
  left
  rw [str_mem_append]
  right
  apply mem_joinSep ", " (jsonDumpsKVs kvs) _ (jsonDumpsKVs_mem kvs hkv)
  rw [str_mem_append]
  right
  exact mem_jsonDumpsStr hc hs

theorem mem_jsonDumpsObjIndent2 {c : Char} (hc : escChar c = String.singleton c)
    {k s : String} {kvs : List (String × PyVal)}
    (hkv : (k, .VStr s) ∈ kvs) (hs : c ∈ s.data) :
    c ∈ (jsonDumpsObjIndent2 kvs).data := by
  cases kvs with
  | nil => exact absurd hkv (List.not_mem_nil _)
  | cons kv rest =>
      show c ∈ ("\x7b\n  " ++ joinSep ",\n  " (jsonDumpsKVs (kv :: rest)) ++ "\n\x7d").data
      rw [str_mem_append]
      left
      rw [str_mem_append]
      right
      apply mem_joinSep ",\n  " (jsonDumpsKVs (kv :: rest)) _ (jsonDumpsKVs_mem _ hkv)
      rw [str_mem_append]
      right
      exact mem_jsonDumpsStr hc hs

/-- C9.  Every Latin-1 supplement character is emitted literally by the
JSON escaper (no `\uXXXX` escape is ever produced for it), and
consequently any such character occurring in a string field of a stored
record occurs literally in all three serialized artifacts: the remote
JSON request body, the multipart "metadata" form field, and the local
pretty-printed file. -/
theorem utf8_preserved (c : Char) (hlo : 0xA0 ≤ c.toNat) (_hhi : c.toNat ≤ 0xFF) :
    escChar c = String.singleton c
    ∧ ∀ (d : ConversationData) (p : Option String) (k s : String),
        ((k, PyVal.VStr s) ∈ remote_metadata d → c ∈ s.data →
          c ∈ (remote_json_body d).data ∧ c ∈ (multipart_metadata_field d).data)
        ∧ ((k, PyVal.VStr s) ∈ local_payload d p → c ∈ s.data →
          c ∈ (local_file_contents d p).data) := by
  have hc := escChar_latin1 hlo
  refine ⟨hc, ?_⟩
  intro d p k s
  constructor
  · intro hkv hs
    exact ⟨mem_jsonDumpsObjCompact hc hkv hs, mem_jsonDumpsObjCompact hc hkv hs⟩
  · intro hkv hs
    exact mem_jsonDumpsObjIndent2 hc hkv hs

/-- Witness for C9: the accented character of "Stéphane" survives into
all three serialized artifacts. -/
theorem utf8_preserved_witness :
    (0xA0 ≤ 'é'.toNat ∧ 'é'.toNat ≤ 0xFF)
    ∧ 'é' ∈ (remote_json_body dataCore).data
    ∧ 'é' ∈ (multipart_metadata_field dataCore).data
    ∧ 'é' ∈ (local_file_contents dataCore none).data := by
  have h := utf8_preserved 'é' (by decide) (by decide)
  have hmemR : ("transcript", PyVal.VStr "Stéphane") ∈ remote_metadata dataCore :=
    List.Mem.tail _ (List.Mem.tail _ (List.Mem.head _))
  have hmemL : ("transcript", PyVal.VStr "Stéphane") ∈ local_payload dataCore none :=
    List.Mem.tail _ (List.Mem.tail _ (List.Mem.head _))
  obtain ⟨hr1, hr2⟩ :=
    ((h.2 dataCore none "transcript" "Stéphane").1) hmemR (by decide)
  exact ⟨⟨by decide, by decide⟩, hr1, hr2,
    ((h.2 dataCore none "transcript" "Stéphane").2) hmemL (by decide)⟩

end VoiceAgent
